import Mathlib

/-!
Verification of the CloakTalk matchmaking/queueing engine.

Shallow embedding of `base/services.py` (class `MatchingService`),
`base/models.py` (models `WaitingListEntry`, `Chat`, `Message`) and the
queue-related part of `base/consumers.py` (class `MainConsumer`).

The database is modelled as an explicit state (`MState`) holding the
waiting-list rows, the chat rows and the message rows, together with the
current wall-clock time (`timezone.now()` is read once per service call)
and the next fresh primary keys.  Timestamps are natural numbers
(seconds).  Users are plain records carrying the three fields the engine
reads: primary key, college foreign key (nullable) and the
`is_service_account` flag.  Django model instances compare by primary
key, so all user/row comparisons below are by id.

Schema note: in `base/models.py` both `WaitingListEntry.college` and
`Chat.college` are declared as `ForeignKey(College, on_delete=CASCADE)`
with the default `null=False`, i.e. the columns are NOT NULL.  The
embedding therefore stores a plain `Nat` college id in those rows, and an
attempted INSERT with a null college is modelled as a database integrity
failure (`Option`/error result), rolled back by `transaction.atomic`.
-/

namespace CloakTalk

/-- The fields of `accounts.User` read by the matching engine:
primary key, nullable college id, and the service-account flag. -/
structure User where
  id : Nat
  college : Option Nat
  is_service_account : Bool
deriving DecidableEq, Repr

/-- A `base.models.WaitingListEntry` row: user, college (NOT NULL column),
and `created_at`. -/
structure WaitingListEntry where
  user : User
  college : Nat
  created_at : Nat
deriving DecidableEq, Repr

/-- A `base.models.Chat` row: id, college (NOT NULL column), the two
participant user ids, `created_at` and `is_active`. -/
structure Chat where
  id : Nat
  college : Nat
  participant1 : Nat
  participant2 : Nat
  created_at : Nat
  is_active : Bool
deriving DecidableEq, Repr

/-- Message type choices of `base.models.Message`. -/
inductive MessageType where
  | text
  | system
deriving DecidableEq, Repr

/-- A `base.models.Message` row: id, chat id, nullable sender id, content,
type, `created_at` and `is_read`. -/
structure Message where
  id : Nat
  chat : Nat
  sender : Option Nat
  content : String
  message_type : MessageType
  created_at : Nat
  is_read : Bool
deriving DecidableEq, Repr

/-- The database state seen by the engine, plus the current time and the
next fresh primary keys for chats and messages. -/
structure MState where
  entries : List WaitingListEntry
  chats : List Chat
  messages : List Message
  nextChatId : Nat
  nextMessageId : Nat
  now : Nat
deriving DecidableEq, Repr

/-! ## Chat history queries (`MatchingService`) -/

/-- `MatchingService.has_any_chat_history`:
`Chat.objects.filter(Q(participant1=user) | Q(participant2=user)).exists()`. -/
def hasAnyChatHistory (chats : List Chat) (u : User) : Bool :=
  chats.any (fun c => c.participant1 == u.id || c.participant2 == u.id)

/-- `MatchingService.have_users_chatted_before`: a chat between the two
users, in either orientation, exists. -/
def haveUsersChattedBefore (chats : List Chat) (u1 u2 : User) : Bool :=
  chats.any (fun c =>
    (c.participant1 == u1.id && c.participant2 == u2.id) ||
    (c.participant1 == u2.id && c.participant2 == u1.id))

/-- `MatchingService.get_most_recent_chat_time`: creation time of the most
recent chat between the two users (`order_by("-created_at").first()`),
i.e. the maximum `created_at` among their shared chats. -/
def getMostRecentChatTime (chats : List Chat) (u1 u2 : User) : Option Nat :=
  (chats.filter (fun c =>
    (c.participant1 == u1.id && c.participant2 == u2.id) ||
    (c.participant1 == u2.id && c.participant2 == u1.id))).foldl
    (fun acc c =>
      match acc with
      | none => some c.created_at
      | some t => some (max t c.created_at))
    none

/-- `MatchingService.get_active_chat`:
`Chat.objects.filter(Q(participant1=user) | Q(participant2=user), is_active=True).first()`. -/
def getActiveChat (s : MState) (u : User) : Option Chat :=
  s.chats.find? (fun c =>
    (c.participant1 == u.id || c.participant2 == u.id) && c.is_active)

/-! ## Pool assembly for `find_match` -/

/-- The waiting entries selected by `find_match`'s queryset: for a given
college, the college's entries, plus every service-account entry when
`include_service_accounts` is set; with no college, all service-account
entries. -/
def poolEntries (s : MState) (college : Option Nat) (includeService : Bool) :
    List WaitingListEntry :=
  match college with
  | some c =>
    if includeService then
      s.entries.filter (fun e => e.college == c || e.user.is_service_account)
    else
      s.entries.filter (fun e => e.college == c)
  | none => s.entries.filter (fun e => e.user.is_service_account)

/-- Insert an entry into a list sorted by `created_at` ascending, after all
entries with the same timestamp (stable insertion). -/
def insertByCreatedAt (e : WaitingListEntry) :
    List WaitingListEntry → List WaitingListEntry
  | [] => [e]
  | x :: xs =>
    if e.created_at < x.created_at then e :: x :: xs
    else x :: insertByCreatedAt e xs

/-- `order_by("created_at")`: stable sort by creation time ascending
(the database leaves the order of equal timestamps unspecified; this
realises one permitted order). -/
def orderByCreatedAt (l : List WaitingListEntry) : List WaitingListEntry :=
  l.foldr insertByCreatedAt []

/-- The ordered pool `waiting_entries` used by `find_match`. -/
def assemblePool (s : MState) (college : Option Nat) (includeService : Bool) :
    List WaitingListEntry :=
  orderByCreatedAt (poolEntries s college includeService)

/-! ## The matcher `find_match` -/

/-- Strategy 2 of `find_match`: scan all unordered pairs of experienced
users in pool order and return the first pair who have never chatted. -/
def strategy2Scan (chats : List Chat) : List User → Option (User × User)
  | [] => none
  | u :: rest =>
    match rest.find? (fun v => !haveUsersChattedBefore chats u v) with
    | some v => some (u, v)
    | none => strategy2Scan chats rest

/-- All unordered pairs of a list, in the lexicographic order produced by
the nested `for` loops of `find_match`. -/
def allPairs : List User → List (User × User)
  | [] => []
  | u :: rest => rest.map (fun v => (u, v)) ++ allPairs rest

/-- `next(entry for entry in waiting_entries if entry.user == user)`:
the first pool entry belonging to the user (model comparison is by pk). -/
def entryFor (pool : List WaitingListEntry) (u : User) : Option WaitingListEntry :=
  pool.find? (fun e => e.user.id == u.id)

/-- Strategy 3's wait-time gate: the user's (first) pool entry is at least
5 seconds old.  The `none` case cannot arise for users drawn from the
pool itself (every such user has an entry). -/
def waitedAtLeast5 (pool : List WaitingListEntry) (now : Nat) (u : User) : Bool :=
  match entryFor pool u with
  | some e => decide (5 ≤ now - e.created_at)
  | none => false

/-- Loop-body update of strategy 3: `(best_pair, oldest_chat_time)` is
replaced whenever no best time has been recorded yet (the
`oldest_chat_time is None` test) or the pair's most recent shared chat is
strictly older than the recorded one. -/
def tier4Step (chats : List Chat) (acc : Option (User × User) × Option Nat)
    (p : User × User) : Option (User × User) × Option Nat :=
  let t := getMostRecentChatTime chats p.1 p.2
  match acc.2 with
  | none => (some p, t)
  | some o =>
    match t with
    | some tv => if tv < o then (some p, t) else acc
    | none => acc

/-- Strategy 3 of `find_match`: among pairs of experienced users who have
both waited at least 5 seconds, keep the pair whose most recent shared
chat is oldest (strict improvement, so the first pair in scan order wins
ties). -/
def strategy3Select (pool : List WaitingListEntry) (chats : List Chat)
    (now : Nat) (experienced : List User) : Option (User × User) :=
  let eligible := (allPairs experienced).filter
    (fun p => waitedAtLeast5 pool now p.1 && waitedAtLeast5 pool now p.2)
  (eligible.foldl (tier4Step chats)
    ((none : Option (User × User)), (none : Option Nat))).1

/-- `MatchingService.find_match` on an assembled pool: requires at least
two entries; partitions users into fresh and experienced preserving pool
order; tier 1 pairs the first two fresh users; tier 2 pairs a lone fresh
user with the first experienced user; tier 3 is `strategy2Scan`; tier 4 is
`strategy3Select`. -/
def findMatchOnPool (pool : List WaitingListEntry) (chats : List Chat)
    (now : Nat) : Option (User × User) :=
  if pool.length < 2 then none
  else
    let users := pool.map (fun e => e.user)
    let freshUsers := users.filter (fun u => !hasAnyChatHistory chats u)
    let experiencedUsers := users.filter (fun u => hasAnyChatHistory chats u)
    match freshUsers, experiencedUsers with
    | u1 :: u2 :: _, _ => some (u1, u2)
    | [u1], e1 :: _ => some (u1, e1)
    | _, _ =>
      match strategy2Scan chats experiencedUsers with
      | some p => some p
      | none => strategy3Select pool chats now experiencedUsers

/-- `MatchingService.find_match`. -/
def find_match (s : MState) (college : Option Nat) (includeService : Bool) :
    Option (User × User) :=
  findMatchOnPool (assemblePool s college includeService) s.chats s.now

/-! ## Session manager: `create_chat` and `end_chat` -/

def chatStartedContent : String :=
  "Chat started! You can now send messages anonymously."

def chatEndedContent : String :=
  "Chat has ended. Thank you for using CloakTalk!"

/-- College derivation in `create_chat`: keep the given college when
present, else the first non-service participant's college when set. -/
def deriveChatCollege (u1 u2 : User) (college : Option Nat) : Option Nat :=
  match college with
  | some c => some c
  | none =>
    if !u1.is_service_account && u1.college.isSome then u1.college
    else if !u2.is_service_account && u2.college.isSome then u2.college
    else none

/-- `MatchingService.create_chat`, a `transaction.atomic` block: delete
every waiting entry of either user (any college), insert the chat row and
the opening system message.  When the derived college is null the INSERT
into the NOT NULL `chats.college` column raises `IntegrityError` and the
transaction rolls back, leaving the state unchanged: modelled as `none`
(the caller keeps the pre-call state). -/
def create_chat (u1 u2 : User) (college : Option Nat) (s : MState) :
    Option (Chat × MState) :=
  match deriveChatCollege u1 u2 college with
  | none => none
  | some c =>
    let entries' := s.entries.filter
      (fun e => !(e.user.id == u1.id || e.user.id == u2.id))
    let chat : Chat :=
      { id := s.nextChatId, college := c, participant1 := u1.id,
        participant2 := u2.id, created_at := s.now, is_active := true }
    let msg : Message :=
      { id := s.nextMessageId, chat := chat.id, sender := none,
        content := chatStartedContent, message_type := .system,
        created_at := s.now, is_read := false }
    some (chat,
      { s with
        entries := entries',
        chats := s.chats ++ [chat],
        messages := s.messages ++ [msg],
        nextChatId := s.nextChatId + 1,
        nextMessageId := s.nextMessageId + 1 })

/-- `MatchingService.end_chat`: if the chat object is active, mark its row
inactive, append the closing system message and return `true`; otherwise
return `false` and change nothing. -/
def end_chat (chat : Chat) (s : MState) : Bool × MState :=
  if chat.is_active then
    let msg : Message :=
      { id := s.nextMessageId, chat := chat.id, sender := none,
        content := chatEndedContent, message_type := .system,
        created_at := s.now, is_read := false }
    (true,
      { s with
        chats := s.chats.map
          (fun c => if c.id == chat.id then { c with is_active := false } else c),
        messages := s.messages ++ [msg],
        nextMessageId := s.nextMessageId + 1 })
  else (false, s)

/-! ## Waiting-list mutations -/

/-- Outcome of `MatchingService.add_to_waiting_list`: the boolean result
of `get_or_create`, or one of the two failure modes (the `ValueError`
raised for a collegeless regular user, and the database `IntegrityError`
raised when inserting a null college into the NOT NULL
`WaitingListEntry.college` column). -/
inductive AddResult where
  | added
  | alreadyQueued
  | valueError
  | integrityError
deriving DecidableEq, Repr

/-- `MatchingService.add_to_waiting_list`: service accounts fall back to
their own college; regular users without a college are rejected with
`ValueError`; otherwise `get_or_create(user=user, college=college)`. -/
def add_to_waiting_list (user : User) (college : Option Nat) (s : MState) :
    AddResult × MState :=
  let college :=
    if user.is_service_account then
      match college with
      | some c => some c
      | none => user.college
    else college
  if college.isNone && !user.is_service_account then (.valueError, s)
  else
    match college with
    | some c =>
      if s.entries.any (fun e => e.user.id == user.id && e.college == c) then
        (.alreadyQueued, s)
      else
        (.added,
          { s with entries :=
              s.entries ++ [{ user := user, college := c, created_at := s.now }] })
    | none => (.integrityError, s)

/-! ## Orchestration: `try_match_users` -/

/-- Outcome of a `try_match_users` call: a created chat, no match, or a
propagated database error (from `create_chat`'s failed INSERT). -/
inductive MatchOutcome where
  | matched (c : Chat)
  | noMatch
  | dbError
deriving DecidableEq, Repr

/-- One-step body of the `while True` loop of
`MatchingService.try_match_users`, with explicit fuel: ask `find_match`
for a pair; purge the waiting entries of any candidate already holding an
active chat and loop; otherwise derive the chat college (non-service
participant's college when a service account is involved) and call
`create_chat`. -/
def try_match_users_fuel (fuel : Nat) (college : Option Nat)
    (includeService : Bool) (s : MState) : MatchOutcome × MState :=
  match fuel with
  | 0 => (.noMatch, s)
  | f + 1 =>
    match find_match s college includeService with
    | none => (.noMatch, s)
    | some (u1, u2) =>
      let a1 := getActiveChat s u1
      let a2 := getActiveChat s u2
      if a1.isSome || a2.isSome then
        let s1 :=
          if a1.isSome then
            { s with entries := s.entries.filter (fun e => !(e.user.id == u1.id)) }
          else s
        let s2 :=
          if a2.isSome then
            { s1 with entries := s1.entries.filter (fun e => !(e.user.id == u2.id)) }
          else s1
        try_match_users_fuel f college includeService s2
      else
        let chatCollege :=
          if u1.is_service_account || u2.is_service_account then
            if !u1.is_service_account then u1.college
            else if !u2.is_service_account then u2.college
            else college
          else college
        match create_chat u1 u2 chatCollege s with
        | none => (.dbError, s)
        | some (c, s') => (.matched c, s')

/-- `MatchingService.try_match_users`.  Each loop iteration that does not
return deletes at least one waiting entry (the purged candidate's), so
`entries.length + 1` units of fuel always suffice. -/
def try_match_users (college : Option Nat) (includeService : Bool)
    (s : MState) : MatchOutcome × MState :=
  try_match_users_fuel (s.entries.length + 1) college includeService s

/-! ## `try_match_service_account` and the consumer layer -/

/-- Distinct colleges that currently have waiting entries
(`College.objects.filter(waitinglistentry__isnull=False).distinct()`;
the database leaves the order unspecified, first occurrence here). -/
def distinctColleges (entries : List WaitingListEntry) : List Nat :=
  (entries.map (fun e => e.college)).foldl
    (fun acc c => if acc.contains c then acc else acc ++ [c]) []

/-- The college loop of `MatchingService.try_match_service_account`:
try each college in turn, threading the database state; a database error
propagates. -/
def tryMatchCollegesGo : List Nat → MState → MatchOutcome × MState
  | [], s => (.noMatch, s)
  | c :: rest, s =>
    match try_match_users (some c) true s with
    | (.matched ch, s') => (.matched ch, s')
    | (.noMatch, s') => tryMatchCollegesGo rest s'
    | (.dbError, s') => (.dbError, s')

/-- `MatchingService.try_match_service_account`: nothing to do when no
service account is queued; otherwise try each college with waiting users
(list snapshotted before the loop). -/
def try_match_service_account (s : MState) : MatchOutcome × MState :=
  if s.entries.any (fun e => e.user.is_service_account) then
    tryMatchCollegesGo (distinctColleges s.entries) s
  else (.noMatch, s)

/-- The matching call made by `MainConsumer.try_match`: service accounts
go through `try_match_service_account`, everyone else through
`try_match_users(user.college, include_service_accounts=True)`. -/
def consumerImmediateMatch (user : User) (s : MState) : MatchOutcome × MState :=
  if user.is_service_account then try_match_service_account s
  else try_match_users user.college true s

/-- `MainConsumer.try_match`: the returned flag records whether
`schedule_delayed_match` was invoked, which happens exactly in the
`else` branch, i.e. when the immediate attempt produced no chat (a
database error propagates before either branch). -/
def consumerTryMatch (user : User) (s : MState) :
    (MatchOutcome × MState) × Bool :=
  let r := consumerImmediateMatch user s
  (r, decide (r.1 = MatchOutcome.noMatch))

/-- Result of a `MainConsumer.join_queue` action. -/
inductive JoinResult where
  | existingChat (c : Chat)
  | enqueueError
  | matchResult (r : MatchOutcome)
deriving DecidableEq, Repr

/-- `MainConsumer.join_queue`: a user already holding an active chat gets
that chat back and nothing else happens; otherwise the user is enqueued
under their own college (an enqueue exception propagates) and the
immediate match is attempted.  The boolean records whether a delayed
re-match attempt was scheduled. -/
def join_queue (user : User) (s : MState) : JoinResult × MState × Bool :=
  match getActiveChat s user with
  | some c => (.existingChat c, s, false)
  | none =>
    let (ar, s1) := add_to_waiting_list user user.college s
    match ar with
    | .valueError => (.enqueueError, s1, false)
    | .integrityError => (.enqueueError, s1, false)
    | _ =>
      let ((r, s2), sched) := consumerTryMatch user s1
      (.matchResult r, s2, sched)

/-- The body of the delayed task created by
`MainConsumer.schedule_delayed_match`, at the moment it fires: it returns
without acting unless the user still has a waiting-list entry, and
otherwise runs `try_match_users(college, include_service_accounts=True)`. -/
def delayedMatchFire (user : User) (college : Option Nat) (s : MState) :
    Option (MatchOutcome × MState) :=
  if s.entries.any (fun e => e.user.id == user.id) then
    some (try_match_users college true s)
  else none

/-! ## The no-two-active-chats invariant -/

/-- Two chat rows share a participant. -/
def sharesParticipant (c1 c2 : Chat) : Bool :=
  c1.participant1 == c2.participant1 || c1.participant1 == c2.participant2 ||
  c1.participant2 == c2.participant1 || c1.participant2 == c2.participant2

/-- Two distinct chat rows may not both be active and share a participant. -/
def ChatsOk (c1 c2 : Chat) : Prop :=
  c1.is_active = true → c2.is_active = true → sharesParticipant c1 c2 = false

instance : DecidablePred fun p : Chat × Chat => ChatsOk p.1 p.2 := by
  intro p
  unfold ChatsOk
  infer_instance

/-- The core consistency invariant: no user id appears as a participant in
two different active chat rows. -/
def NoDoubleActive (s : MState) : Prop :=
  s.chats.Pairwise ChatsOk

instance (s : MState) : Decidable (NoDoubleActive s) := by
  unfold NoDoubleActive
  have : DecidableRel ChatsOk := by
    intro c1 c2
    unfold ChatsOk
    infer_instance
  infer_instance

/-! ## Spec-side characterisation of the tier-3 result

Formalises the spec's words "scan all unordered pairs in pool order and
return the first pair who have never shared a Chat before", to be
compared with the code's scan. -/

/-- No unordered pair strictly earlier than `(i, j)` in the lexicographic
pool order is a never-chatted pair. -/
def NoEarlierNovelPair (chats : List Chat) (l : List User) (i j : Nat) : Prop :=
  ∀ i' j' : Nat, i' < j' →
    (i' < i ∨ (i' = i ∧ j' < j)) →
    ∀ a' b', l.get? i' = some a' → l.get? j' = some b' →
      haveUsersChattedBefore chats a' b' = true

/-- `(a, b)` occupy positions `i < j` of the pool-ordered list, have never
chatted, and no lexicographically earlier pair qualifies: the first
never-chatted pair in pool order. -/
def IsFirstNovelPair (chats : List Chat) (l : List User) (a b : User) : Prop :=
  ∃ i j : Nat, i < j ∧ l.get? i = some a ∧ l.get? j = some b ∧
    haveUsersChattedBefore chats a b = false ∧
    NoEarlierNovelPair chats l i j

/-! ## Concrete fixtures used by witnesses and counterexamples -/

/-- An experienced user (chatted with user 99). -/
def expUserP : User := { id := 31, college := some 1, is_service_account := false }

/-- Another experienced user (also chatted with user 99), never with
`expUserP`. -/
def expUserQ : User := { id := 32, college := some 1, is_service_account := false }

/-- Pool of the two experienced users. -/
def tier3Pool : List WaitingListEntry := [⟨expUserP, 1, 0⟩, ⟨expUserQ, 1, 1⟩]

/-- Chat history: both users chatted with user 99, never together. -/
def tier3Chats : List Chat :=
  [⟨0, 1, 31, 99, 0, false⟩, ⟨1, 1, 32, 99, 0, false⟩]

/-- An empty database. -/
def emptyState : MState :=
  { entries := [], chats := [], messages := [], nextChatId := 0,
    nextMessageId := 0, now := 0 }

/-- A service account with no college. -/
def svcUserA : User := { id := 101, college := none, is_service_account := true }

/-- A service account that does have a college. -/
def svcUserB : User := { id := 102, college := some 7, is_service_account := true }

/-- Both service accounts queued under college 7. -/
def svcPairState : MState :=
  { entries := [⟨svcUserA, 7, 0⟩, ⟨svcUserB, 7, 1⟩], chats := [], messages := [],
    nextChatId := 0, nextMessageId := 0, now := 10 }

/-- A regular (non-service) user with no college. -/
def regNoCollege : User := { id := 11, college := none, is_service_account := false }

/-- A service account with no college, used as enqueue input. -/
def svcNoCollege : User := { id := 12, college := none, is_service_account := true }

/-- An active chat row between users 1 and 2. -/
def sampleChat : Chat :=
  { id := 0, college := 1, participant1 := 1, participant2 := 2,
    created_at := 0, is_active := true }

/-- A state holding just `sampleChat`. -/
def sampleChatState : MState :=
  { entries := [], chats := [sampleChat], messages := [], nextChatId := 1,
    nextMessageId := 1, now := 5 }

/-- A fresh regular user of college 1. -/
def freshUser1 : User := { id := 1, college := some 1, is_service_account := false }

/-- A second fresh regular user of college 1. -/
def freshUser2 : User := { id := 2, college := some 1, is_service_account := false }

/-- A two-entry pool holding the two fresh users. -/
def freshPool : List WaitingListEntry :=
  [⟨freshUser1, 1, 0⟩, ⟨freshUser2, 1, 1⟩]

/-- A one-entry pool. -/
def onePool : List WaitingListEntry := [⟨freshUser1, 1, 0⟩]

/-- An experienced user of college 3 (holds an active chat with user 23). -/
def expUserA : User := { id := 21, college := some 3, is_service_account := false }

/-- A fresh user of college 3. -/
def freshUserC : User := { id := 22, college := some 3, is_service_account := false }

/-- College-3 state: `expUserA` holds an active chat but also has a stale
waiting entry, next to fresh `freshUserC`'s entry. -/
def staleState : MState :=
  { entries := [⟨expUserA, 3, 0⟩, ⟨freshUserC, 3, 1⟩],
    chats := [⟨0, 3, 21, 23, 0, true⟩], messages := [],
    nextChatId := 1, nextMessageId := 0, now := 10 }

/-- Repeat-pair fixture: first user of college 4. -/
def repUserA : User := { id := 41, college := some 4, is_service_account := false }

/-- Repeat-pair fixture: second user of college 4. -/
def repUserB : User := { id := 42, college := some 4, is_service_account := false }

/-- The (ended) chat the repeat pair shared. -/
def repChat : Chat :=
  { id := 0, college := 4, participant1 := 41, participant2 := 42,
    created_at := 0, is_active := false }

/-- Both repeat users waiting; the younger entry is 2 seconds old. -/
def beforeState : MState :=
  { entries := [⟨repUserA, 4, 0⟩, ⟨repUserB, 4, 1⟩], chats := [repChat],
    messages := [], nextChatId := 1, nextMessageId := 1, now := 3 }

/-- Both repeat users waiting; both entries at least 5 seconds old. -/
def afterState : MState :=
  { entries := [⟨repUserA, 4, 0⟩, ⟨repUserB, 4, 1⟩], chats := [repChat],
    messages := [], nextChatId := 1, nextMessageId := 1, now := 9 }

/-- State in which `freshUser1` is already queued under college 1 and a
second fresh user is about to join. -/
def c9State : MState :=
  { entries := [⟨freshUser1, 1, 0⟩], chats := [], messages := [],
    nextChatId := 0, nextMessageId := 0, now := 10 }

/-- A service account queued twice, under colleges 1 and 2. -/
def dupUser : User := { id := 55, college := some 1, is_service_account := true }

/-- The state with `dupUser`'s two waiting entries. -/
def dupState : MState :=
  { entries := [⟨dupUser, 1, 0⟩, ⟨dupUser, 2, 0⟩], chats := [], messages := [],
    nextChatId := 0, nextMessageId := 0, now := 0 }

end CloakTalk

namespace CloakTalk

/-! ## Theorems -/

/-- **C6.** The claim fails on the code at the failing input: for two
service-account participants and no scope, `create_chat` derives a null
college, the INSERT into the NOT NULL `chats.college` column raises
`IntegrityError`, and the atomic transaction rolls back — no chat row, no
opening message, and the waiting entries are kept (modelled by the `none`
result, the caller's state unchanged).  The services' own docstring
("College is optional for service account chats") says the claim's
behaviour was intended. -/
theorem create_chat_both_service_null_college_fails :
    create_chat svcUserA svcUserB none svcPairState = none := by
  rfl

/-- **C8.** Evaluation at the failing input: a regular user with no
college is indeed rejected eagerly with `ValueError`, but a service
account with no college is *not* successfully enqueued — the INSERT into
the NOT NULL `WaitingListEntry.college` column fails with
`IntegrityError` instead of producing a null-college entry. -/
theorem add_to_waiting_list_null_college_behavior :
    add_to_waiting_list regNoCollege none emptyState =
      (AddResult.valueError, emptyState) ∧
    add_to_waiting_list svcNoCollege none emptyState =
      (AddResult.integrityError, emptyState) := by
  exact ⟨rfl, rfl⟩

/-- **C7.** Calling `end_chat` twice in a row: the first call on an active
chat returns `true`, appends exactly one closing system message, and sets
the chat's row inactive; the second call (on the now-inactive chat)
returns `false` and changes nothing. -/
theorem end_chat_called_twice (chat : Chat) (s : MState)
    (h : chat.is_active = true) :
    (end_chat chat s).1 = true ∧
    (end_chat chat s).2.messages = s.messages ++
      [{ id := s.nextMessageId, chat := chat.id, sender := none,
         content := chatEndedContent, message_type := .system,
         created_at := s.now, is_read := false }] ∧
    (∀ c ∈ (end_chat chat s).2.chats, c.id = chat.id → c.is_active = false) ∧
    end_chat { chat with is_active := false } (end_chat chat s).2 =
      (false, (end_chat chat s).2) := by
  refine ⟨by simp [end_chat, h], by simp [end_chat, h], ?_, by simp [end_chat]⟩
  have h2 : (end_chat chat s).2.chats = s.chats.map
      (fun c => if c.id == chat.id then { c with is_active := false } else c) := by
    simp [end_chat, h]
  rw [h2]
  intro c hc hid
  rcases List.mem_map.mp hc with ⟨c', _, rfl⟩
  by_cases hcc : c'.id == chat.id
  · simp [hcc]
  · exfalso
    apply hcc
    simp only [hcc, if_neg, Bool.not_eq_true, if_false] at hid
    simp [hid]

/-- **C3.** `find_match` on a pool with fewer than two entries returns
none; on a pool whose order-preserving fresh sublist starts with `u1, u2`
(the two fresh users earliest in pool order) it returns exactly that
pair. -/
theorem find_match_fresh_pair_tier (pool : List WaitingListEntry)
    (chats : List Chat) (now : Nat) :
    (pool.length < 2 → findMatchOnPool pool chats now = none) ∧
    (∀ u1 u2 rest,
      (pool.map (fun e => e.user)).filter
          (fun u => !hasAnyChatHistory chats u) = u1 :: u2 :: rest →
      findMatchOnPool pool chats now = some (u1, u2)) := by
  constructor
  · intro h
    simp [findMatchOnPool, h]
  · intro u1 u2 rest h
    have hle : ((pool.map (fun e => e.user)).filter
        (fun u => !hasAnyChatHistory chats u)).length ≤ pool.length := by
      have h1 := List.length_filter_le
        (fun u => !hasAnyChatHistory chats u) (pool.map (fun e => e.user))
      simpa using h1
    rw [h] at hle
    simp only [List.length_cons] at hle
    have hlt : ¬ pool.length < 2 := by omega
    simp only [findMatchOnPool, if_neg hlt, h]

/-- Witness for **C3**: a one-entry pool yields none; a pool of two fresh
users yields exactly those two users, oldest first. -/
theorem find_match_fresh_pair_tier_witness :
    findMatchOnPool onePool [] 0 = none ∧
    findMatchOnPool freshPool [] 0 = some (freshUser1, freshUser2) :=
  ⟨(find_match_fresh_pair_tier onePool [] 0).1 (by decide),
   (find_match_fresh_pair_tier freshPool [] 0).2 freshUser1 freshUser2 [] (by rfl)⟩

/-- **C10 counterexample.** When a service account is queued under two
colleges, the assembled pool contains it twice and `find_match` pairs the
user with itself: the returned users are not distinct. -/
theorem find_match_can_pair_user_with_itself :
    find_match dupState (some 1) true = some (dupUser, dupUser) := by
  rfl

/-- `hasAnyChatHistory` depends only on the user's id. -/
theorem hasAnyChatHistory_congr (chats : List Chat) {a b : User}
    (h : a.id = b.id) :
    hasAnyChatHistory chats a = hasAnyChatHistory chats b := by
  simp [hasAnyChatHistory, h]

/-- A tier-3 result splits its list: the second user occurs strictly after
the first. -/
theorem strategy2Scan_split (chats : List Chat) :
    ∀ (l : List User) (a b : User), strategy2Scan chats l = some (a, b) →
      ∃ l₁ l₂, l = l₁ ++ a :: l₂ ∧ b ∈ l₂ := by
  intro l
  induction l with
  | nil => intro a b h; simp [strategy2Scan] at h
  | cons u rest ih =>
    intro a b h
    simp only [strategy2Scan] at h
    cases hf : rest.find? (fun v => !haveUsersChattedBefore chats u v) with
    | some v =>
      rw [hf] at h
      simp only [Option.some.injEq, Prod.mk.injEq] at h
      obtain ⟨rfl, rfl⟩ := h
      exact ⟨[], rest, rfl, List.mem_of_find?_eq_some hf⟩
    | none =>
      rw [hf] at h
      obtain ⟨l₁, l₂, heq, hb⟩ := ih a b h
      exact ⟨u :: l₁, l₂, by rw [heq]; rfl, hb⟩

/-- Any element of `allPairs l` splits `l`, with the second component
strictly after the first. -/
theorem allPairs_split :
    ∀ (l : List User) (p : User × User), p ∈ allPairs l →
      ∃ l₁ l₂, l = l₁ ++ p.1 :: l₂ ∧ p.2 ∈ l₂ := by
  intro l
  induction l with
  | nil => intro p hp; simp [allPairs] at hp
  | cons u rest ih =>
    intro p hp
    simp only [allPairs, List.mem_append] at hp
    rcases hp with hp | hp
    · rcases List.mem_map.mp hp with ⟨v, hv, rfl⟩
      exact ⟨[], rest, rfl, hv⟩
    · rcases ih p hp with ⟨l₁, l₂, heq, hb⟩
      exact ⟨u :: l₁, l₂, by rw [heq]; rfl, hb⟩

/-- A successful `find?` names the first satisfying element: everything
strictly before its index fails the predicate. -/
theorem find?_some_first {α : Type} (p : α → Bool) :
    ∀ (l : List α) (v : α), l.find? p = some v →
      ∃ k, l.get? k = some v ∧
        ∀ k' w, k' < k → l.get? k' = some w → p w = false := by
  intro l
  induction l with
  | nil => intro v h; simp at h
  | cons x xs ih =>
    intro v h
    cases hp : p x with
    | true =>
      rw [List.find?_cons_of_pos _ hp] at h
      simp only [Option.some.injEq] at h
      subst h
      exact ⟨0, rfl, fun k' w hk' _ => absurd hk' (by omega)⟩
    | false =>
      rw [List.find?_cons_of_neg _ (by simp [hp])] at h
      obtain ⟨k, hk, hfirst⟩ := ih v h
      refine ⟨k + 1, by rw [List.get?_cons_succ]; exact hk, ?_⟩
      intro k' w hk' hw
      cases k' with
      | zero =>
        simp only [List.get?_cons_zero, Option.some.injEq] at hw
        subst hw
        exact hp
      | succ k'' =>
        rw [List.get?_cons_succ] at hw
        exact hfirst k'' w (by omega) hw

/-- A failed `find?` means every element fails the predicate. -/
theorem find?_none_all {α : Type} (p : α → Bool) (l : List α)
    (h : l.find? p = none) :
    ∀ k w, l.get? k = some w → p w = false := by
  intro k w hw
  have hmem : w ∈ l := List.get?_mem hw
  have := List.find?_eq_none.mp h w hmem
  exact Bool.eq_false_iff.mpr this

/-- When the tier-3 scan finds nothing, every pool-ordered pair has
chatted before. -/
theorem strategy2Scan_none_sound (chats : List Chat) :
    ∀ (l : List User), strategy2Scan chats l = none →
      ∀ i j a b, i < j → l.get? i = some a → l.get? j = some b →
        haveUsersChattedBefore chats a b = true := by
  intro l
  induction l with
  | nil => intro h i j a b hij ha hb; simp at ha
  | cons u rest ih =>
    intro h i j a b hij ha hb
    have hsplit : rest.find? (fun v => !haveUsersChattedBefore chats u v) = none ∧
        strategy2Scan chats rest = none := by
      simp only [strategy2Scan] at h
      cases hf : rest.find? (fun v => !haveUsersChattedBefore chats u v) with
      | some v => rw [hf] at h; simp at h
      | none => rw [hf] at h; exact ⟨rfl, h⟩
    cases i with
    | zero =>
      simp only [List.get?_cons_zero, Option.some.injEq] at ha
      subst ha
      cases j with
      | zero => omega
      | succ j' =>
        rw [List.get?_cons_succ] at hb
        have := find?_none_all _ rest hsplit.1 j' b hb
        simpa using this
    | succ i' =>
      cases j with
      | zero => omega
      | succ j' =>
        rw [List.get?_cons_succ] at ha hb
        exact ih hsplit.2 i' j' a b (by omega) ha hb

/-- The tier-3 scan returns the first never-chatted pair in pool order. -/
theorem strategy2Scan_first (chats : List Chat) :
    ∀ (l : List User) (a b : User), strategy2Scan chats l = some (a, b) →
      IsFirstNovelPair chats l a b := by
  intro l
  induction l with
  | nil => intro a b h; simp [strategy2Scan] at h
  | cons u rest ih =>
    intro a b h
    simp only [strategy2Scan] at h
    cases hf : rest.find? (fun v => !haveUsersChattedBefore chats u v) with
    | some v =>
      rw [hf] at h
      simp only [Option.some.injEq, Prod.mk.injEq] at h
      obtain ⟨rfl, rfl⟩ := h
      obtain ⟨k, hk, hfirst⟩ := find?_some_first _ rest v hf
      have hpred := List.find?_some hf
      refine ⟨0, k + 1, by omega, rfl,
        by rw [List.get?_cons_succ]; exact hk, by simpa using hpred, ?_⟩
      intro i' j' hij hlt a' b' ha' hb'
      rcases hlt with hlt | ⟨rfl, hj⟩
      · omega
      · cases j' with
        | zero => omega
        | succ j'' =>
          rw [List.get?_cons_succ] at hb'
          simp only [List.get?_cons_zero, Option.some.injEq] at ha'
          subst ha'
          have := hfirst j'' b' (by omega) hb'
          simpa using this
    | none =>
      rw [hf] at h
      obtain ⟨i, j, hij, ha, hb, hnc, hnep⟩ := ih a b h
      refine ⟨i + 1, j + 1, by omega,
        by rw [List.get?_cons_succ]; exact ha,
        by rw [List.get?_cons_succ]; exact hb, hnc, ?_⟩
      intro i' j' hij' hlt a' b' ha' hb'
      cases i' with
      | zero =>
        cases j' with
        | zero => omega
        | succ j'' =>
          simp only [List.get?_cons_zero, Option.some.injEq] at ha'
          subst ha'
          rw [List.get?_cons_succ] at hb'
          have := find?_none_all _ rest hf j'' b' hb'
          simpa using this
      | succ i'' =>
        cases j' with
        | zero => omega
        | succ j'' =>
          rw [List.get?_cons_succ] at ha' hb'
          refine hnep i'' j'' (by omega) ?_ a' b' ha' hb'
          rcases hlt with hlt | ⟨heq, hj⟩
          · left; omega
          · right; exact ⟨by omega, by omega⟩

/-- **C4.** On a pool where every user is experienced and some
pool-ordered pair has never chatted, `find_match` returns the first such
never-chatted pair in pool order and never falls through to the tier-4
oldest-repeat selection. -/
theorem find_match_tier3_before_tier4 (pool : List WaitingListEntry)
    (chats : List Chat) (now : Nat)
    (hlen : 2 ≤ pool.length)
    (hexp : ∀ u ∈ pool.map (fun e => e.user), hasAnyChatHistory chats u = true)
    (i j : Nat) (hij : i < j) (a' b' : User)
    (ha : (pool.map (fun e => e.user)).get? i = some a')
    (hb : (pool.map (fun e => e.user)).get? j = some b')
    (hnc : haveUsersChattedBefore chats a' b' = false) :
    ∃ p, findMatchOnPool pool chats now = some p ∧
      IsFirstNovelPair chats (pool.map (fun e => e.user)) p.1 p.2 := by
  have hfe : (pool.map (fun e => e.user)).filter
      (fun u => !hasAnyChatHistory chats u) = [] := by
    rw [List.filter_eq_nil_iff]
    intro u hu
    simp [hexp u hu]
  have hee : (pool.map (fun e => e.user)).filter
      (fun u => hasAnyChatHistory chats u) = pool.map (fun e => e.user) := by
    rw [List.filter_eq_self]
    intro u hu
    exact hexp u hu
  cases hs : strategy2Scan chats (pool.map (fun e => e.user)) with
  | none =>
    exact absurd
      (strategy2Scan_none_sound chats _ hs i j a' b' hij ha hb)
      (by simp [hnc])
  | some p =>
    refine ⟨p, ?_, ?_⟩
    · have hlt : ¬ pool.length < 2 := by omega
      simp only [findMatchOnPool, if_neg hlt, hfe, hee, hs]
    · rcases p with ⟨x, y⟩
      exact strategy2Scan_first chats _ x y hs

/-- Witness for **C4**: two experienced users who never chatted together. -/
theorem find_match_tier3_before_tier4_witness :
    ∃ p, findMatchOnPool tier3Pool tier3Chats 0 = some p ∧
      IsFirstNovelPair tier3Chats (tier3Pool.map (fun e => e.user)) p.1 p.2 :=
  find_match_tier3_before_tier4 tier3Pool tier3Chats 0 (by decide)
    (by decide) 0 1 (by decide) expUserP expUserQ rfl rfl (by decide)

/-- One tier-4 fold step either keeps the best pair or installs the
scanned pair. -/
theorem tier4Step_fst (chats : List Chat)
    (acc : Option (User × User) × Option Nat) (p : User × User) :
    (tier4Step chats acc p).1 = some p ∨ (tier4Step chats acc p).1 = acc.1 := by
  rcases acc with ⟨a1, a2⟩
  cases a2 with
  | none => simp [tier4Step]
  | some o =>
    simp only [tier4Step]
    cases ht : getMostRecentChatTime chats p.1 p.2 with
    | none => simp [ht]
    | some tv =>
      simp only [ht]
      by_cases hlt : tv < o
      · simp [hlt]
      · simp [hlt]

/-- The tier-4 fold only ever returns its seed or a scanned pair. -/
theorem tier4_fold_mem (chats : List Chat) :
    ∀ (l : List (User × User)) (acc : Option (User × User) × Option Nat)
      (p : User × User),
      (l.foldl (tier4Step chats) acc).1 = some p → acc.1 = some p ∨ p ∈ l := by
  intro l
  induction l with
  | nil => intro acc p h; left; simpa using h
  | cons q rest ih =>
    intro acc p h
    rw [List.foldl_cons] at h
    rcases ih (tier4Step chats acc q) p h with h1 | h1
    · rcases tier4Step_fst chats acc q with h2 | h2
      · right
        rw [h1] at h2
        obtain rfl : q = p := by
          have := h2.symm
          simpa using this
        exact List.mem_cons_self q rest
      · left
        rw [← h2]
        exact h1
    · right
      exact List.mem_cons_of_mem q h1

/-- A tier-4 selection is one of the scanned pairs of experienced users. -/
theorem strategy3Select_mem (pool : List WaitingListEntry)
    (chats : List Chat) (now : Nat) (l : List User) (p : User × User) :
    strategy3Select pool chats now l = some p → p ∈ allPairs l := by
  intro h
  unfold strategy3Select at h
  rcases tier4_fold_mem chats _ _ _ h with h1 | h1
  · simp at h1
  · exact List.mem_of_mem_filter h1

/-- In a list whose mapped ids are nodup, an element and a strictly later
element have different ids. -/
theorem nodup_split_ne {l l₁ l₂ : List User} {a b : User}
    (hnd : (l.map User.id).Nodup) (heq : l = l₁ ++ a :: l₂) (hb : b ∈ l₂) :
    a.id ≠ b.id := by
  subst heq
  rw [List.map_append, List.map_cons] at hnd
  have h2 : (User.id a :: l₂.map User.id).Nodup := hnd.of_append_right
  have h3 : User.id a ∉ l₂.map User.id := (List.nodup_cons.mp h2).1
  intro hab
  exact h3 (hab ▸ List.mem_map_of_mem User.id hb)

/-- **C10 (amended).** Whenever no user id occurs in more than one pool
entry, a pair returned by `find_match` consists of two distinct users.
(The unamended claim fails when a user holds several entries, see the
counterexample.) -/
theorem find_match_distinct_of_nodup (pool : List WaitingListEntry)
    (chats : List Chat) (now : Nat)
    (hnd : (pool.map (fun e => e.user.id)).Nodup) :
    ∀ a b, findMatchOnPool pool chats now = some (a, b) → a.id ≠ b.id := by
  have hndu : ((pool.map (fun e => e.user)).map User.id).Nodup := by
    rw [List.map_map]
    exact hnd
  have hsubF : ((pool.map (fun e => e.user)).filter
      (fun u => !hasAnyChatHistory chats u)).Sublist (pool.map (fun e => e.user)) :=
    List.filter_sublist _
  have hsubE : ((pool.map (fun e => e.user)).filter
      (fun u => hasAnyChatHistory chats u)).Sublist (pool.map (fun e => e.user)) :=
    List.filter_sublist _
  have hndF := hndu.sublist (hsubF.map User.id)
  have hndE := hndu.sublist (hsubE.map User.id)
  intro a b h
  unfold findMatchOnPool at h
  split at h
  · exact absurd h (by simp)
  · simp only [] at h
    split at h
    · next u1 u2 frest hfil =>
      simp only [Option.some.injEq, Prod.mk.injEq] at h
      obtain ⟨rfl, rfl⟩ := h
      rw [hfil, List.map_cons, List.map_cons] at hndF
      have := (List.nodup_cons.mp hndF).1
      intro hab
      exact this (by rw [hab]; exact List.mem_cons_self _ _)
    · next u1 e1 erest hfil hexp =>
      simp only [Option.some.injEq, Prod.mk.injEq] at h
      obtain ⟨rfl, rfl⟩ := h
      have hu1 : u1 ∈ (pool.map (fun e => e.user)).filter
          (fun u => !hasAnyChatHistory chats u) := by
        rw [hfil]; exact List.mem_cons_self _ _
      have he1 : e1 ∈ (pool.map (fun e => e.user)).filter
          (fun u => hasAnyChatHistory chats u) := by
        rw [hexp]; exact List.mem_cons_self _ _
      have hu1p := (List.mem_filter.mp hu1).2
      have he1p := (List.mem_filter.mp he1).2
      intro hab
      rw [hasAnyChatHistory_congr chats hab] at hu1p
      rw [he1p] at hu1p
      simp at hu1p
    · cases hs : strategy2Scan chats
          ((pool.map (fun e => e.user)).filter
            (fun u => hasAnyChatHistory chats u)) with
      | some p =>
        rw [hs] at h
        simp only [Option.some.injEq] at h
        subst h
        obtain ⟨l₁, l₂, heq, hb⟩ := strategy2Scan_split chats _ a b hs
        exact nodup_split_ne hndE heq hb
      | none =>
        rw [hs] at h
        have hmem := strategy3Select_mem pool chats now _ (a, b) h
        obtain ⟨l₁, l₂, heq, hb⟩ := allPairs_split _ (a, b) hmem
        exact nodup_split_ne hndE heq hb

/-- Witness for **C10 (amended)** on a pool of two distinct users. -/
theorem find_match_distinct_of_nodup_witness :
    freshUser1.id ≠ freshUser2.id :=
  find_match_distinct_of_nodup freshPool [] 0 (by decide)
    freshUser1 freshUser2 (by rfl)

/-- A user holding an active chat has chat history. -/
theorem hasAnyChatHistory_of_active (s : MState) (u : User)
    (h : (getActiveChat s u).isSome = true) :
    hasAnyChatHistory s.chats u = true := by
  unfold getActiveChat at h
  rcases Option.isSome_iff_exists.mp h with ⟨c, hc⟩
  have hmem := List.mem_of_find?_eq_some hc
  have hpred := List.find?_some hc
  unfold hasAnyChatHistory
  rw [List.any_eq_true]
  refine ⟨c, hmem, ?_⟩
  have hpred' : (c.participant1 == u.id || c.participant2 == u.id) = true ∧
      c.is_active = true := by simpa using hpred
  exact hpred'.1

/-- A user with no chat history holds no active chat. -/
theorem getActiveChat_eq_none_of_fresh (s : MState) (u : User)
    (h : hasAnyChatHistory s.chats u = false) :
    getActiveChat s u = none := by
  unfold getActiveChat
  rw [List.find?_eq_none]
  intro c hc
  unfold hasAnyChatHistory at h
  rw [List.any_eq_false] at h
  have := h c hc
  simp only [Bool.and_eq_true, not_and]
  intro h1
  exact absurd h1 (by simpa using this)

/-- Unfolding step of the `try_match_users` loop when no pair is found. -/
theorem tmuf_none (f : Nat) (college : Option Nat) (b : Bool) (s : MState)
    (h : find_match s college b = none) :
    try_match_users_fuel (f + 1) college b s = (.noMatch, s) := by
  rw [try_match_users_fuel, h]

/-- Unfolding step of the loop when the first candidate is clean and the
second holds an active chat: only the second candidate's entries are
purged, and the loop continues. -/
theorem tmuf_purge_second (f : Nat) (college : Option Nat) (b : Bool)
    (s : MState) (u1 u2 : User)
    (hf : find_match s college b = some (u1, u2))
    (h1 : getActiveChat s u1 = none)
    (h2 : (getActiveChat s u2).isSome = true) :
    try_match_users_fuel (f + 1) college b s =
      try_match_users_fuel f college b
        { s with entries := s.entries.filter (fun e => !(e.user.id == u2.id)) } := by
  rw [try_match_users_fuel, hf]
  simp [h1, h2]

/-- Unfolding step of the loop for a clean non-service pair: the chat is
created under the scope college. -/
theorem tmuf_create_nonservice (f : Nat) (college : Option Nat) (b : Bool)
    (s : MState) (u1 u2 : User)
    (hf : find_match s college b = some (u1, u2))
    (h1 : getActiveChat s u1 = none)
    (h2 : getActiveChat s u2 = none)
    (hs1 : u1.is_service_account = false)
    (hs2 : u2.is_service_account = false) :
    try_match_users_fuel (f + 1) college b s =
      (match create_chat u1 u2 college s with
       | none => (.dbError, s)
       | some (c, s') => (.matched c, s')) := by
  rw [try_match_users_fuel, hf]
  simp [h1, h2, hs1, hs2]

/-- A two-entry pool with one experienced and one fresh user selects the
fresh user first, paired with the experienced one, in either pool order. -/
theorem findMatchOnPool_pair_mixed (e1 e2 : WaitingListEntry)
    (chats : List Chat) (now : Nat)
    (h1 : hasAnyChatHistory chats e1.user = true)
    (h2 : hasAnyChatHistory chats e2.user = false) :
    findMatchOnPool [e1, e2] chats now = some (e2.user, e1.user) ∧
    findMatchOnPool [e2, e1] chats now = some (e2.user, e1.user) := by
  constructor <;>
    simp [findMatchOnPool, List.filter, h1, h2]

/-- Sorting a two-element list keeps or swaps it. -/
theorem orderByCreatedAt_two (x y : WaitingListEntry) :
    orderByCreatedAt [x, y] = [x, y] ∨ orderByCreatedAt [x, y] = [y, x] := by
  unfold orderByCreatedAt
  simp only [List.foldr_cons, List.foldr_nil]
  unfold insertByCreatedAt
  by_cases h : x.created_at < y.created_at
  · left; simp [insertByCreatedAt, h]
  · right; simp [insertByCreatedAt, h]

/-- **C2.** User `A` already holds an active chat but a stale waiting
entry `eA` for `A` survives next to fresh user `C`'s entry `eC`, the only
other entry.  `try_match_users` deletes `A`'s entry, keeps `C`'s, creates
no chat, and returns no match. -/
theorem try_match_purges_stale_entry (A C : User)
    (eA eC : WaitingListEntry) (cid : Nat) (b : Bool) (s : MState)
    (hA : eA.user = A) (hC : eC.user = C) (hid : A.id ≠ C.id)
    (hcolA : eA.college = cid) (hcolC : eC.college = cid)
    (hentries : s.entries = [eA, eC] ∨ s.entries = [eC, eA])
    (hactive : (getActiveChat s A).isSome = true)
    (hfresh : hasAnyChatHistory s.chats C = false) :
    try_match_users (some cid) b s = (.noMatch, { s with entries := [eC] }) := by
  have hexpA : hasAnyChatHistory s.chats A = true :=
    hasAnyChatHistory_of_active s A hactive
  have hcleanC : getActiveChat s C = none :=
    getActiveChat_eq_none_of_fresh s C hfresh
  -- the assembled pool is the two entries, in one of the two orders
  have hpoolEntries : poolEntries s (some cid) b = s.entries := by
    rcases hentries with he | he <;>
      cases b <;>
        simp [poolEntries, he, List.filter, hcolA, hcolC]
  have hpool : assemblePool s (some cid) b = [eA, eC] ∨
      assemblePool s (some cid) b = [eC, eA] := by
    unfold assemblePool
    rw [hpoolEntries]
    rcases hentries with he | he <;> rw [he]
    · exact orderByCreatedAt_two eA eC
    · rcases orderByCreatedAt_two eC eA with h | h
      · right; exact h
      · left; exact h
  -- find_match returns (C, A)
  have hfm : find_match s (some cid) b = some (C, A) := by
    unfold find_match
    have hmix := findMatchOnPool_pair_mixed eA eC s.chats s.now
      (by rw [hA]; exact hexpA) (by rw [hC]; exact hfresh)
    rcases hpool with h | h <;> rw [h]
    · rw [hmix.1, hC, hA]
    · rw [hmix.2, hC, hA]
  -- loop iteration 1: purge A's entry; iteration 2: pool too small
  have hlen : s.entries.length = 2 := by
    rcases hentries with he | he <;> rw [he] <;> rfl
  have hfilter : s.entries.filter (fun e => !(e.user.id == A.id)) = [eC] := by
    have hCA : (eC.user.id == A.id) = false := by
      rw [hC]
      exact beq_eq_false_iff_ne.mpr (Ne.symm hid)
    have hAA : (eA.user.id == A.id) = true := by rw [hA]; exact beq_self_eq_true _
    rcases hentries with he | he <;> rw [he] <;>
      simp [List.filter, hCA, hAA]
  show try_match_users_fuel (s.entries.length + 1) (some cid) b s = _
  rw [hlen]
  rw [tmuf_purge_second 2 (some cid) b s C A hfm hcleanC hactive]
  rw [hfilter]
  apply tmuf_none
  -- second round: only eC remains, pool has one entry
  unfold find_match
  have : assemblePool { s with entries := [eC] } (some cid) b = [eC] := by
    cases b <;>
      simp [assemblePool, poolEntries, List.filter, hcolC, orderByCreatedAt,
        insertByCreatedAt]
  rw [this]
  rfl

/-- Witness for **C2**: concrete stale state of college 3. -/
theorem try_match_purges_stale_entry_witness :
    try_match_users (some 3) false staleState =
      (.noMatch, { staleState with entries := [⟨freshUserC, 3, 1⟩] }) :=
  try_match_purges_stale_entry expUserA freshUserC
    ⟨expUserA, 3, 0⟩ ⟨freshUserC, 3, 1⟩ 3 false staleState
    rfl rfl (by decide) rfl rfl (Or.inl rfl) (by decide) (by decide)

/-- A user with no active chat participates in no active chat row. -/
theorem not_active_participant (s : MState) (u : User)
    (h : getActiveChat s u = none) :
    ∀ c ∈ s.chats, c.is_active = true →
      c.participant1 ≠ u.id ∧ c.participant2 ≠ u.id := by
  intro c hc hact
  unfold getActiveChat at h
  rw [List.find?_eq_none] at h
  have := h c hc
  simp only [hact, Bool.and_true, Bool.or_eq_true, beq_iff_eq] at this
  push_neg at this
  exact this

/-- `create_chat` preserves the no-two-active-chats invariant when
neither participant currently holds an active chat. -/
theorem noDoubleActive_create_chat (u1 u2 : User) (college : Option Nat)
    (s : MState) (h : NoDoubleActive s)
    (h1 : getActiveChat s u1 = none) (h2 : getActiveChat s u2 = none)
    (c : Chat) (s' : MState)
    (hcc : create_chat u1 u2 college s = some (c, s')) :
    NoDoubleActive s' := by
  unfold create_chat at hcc
  cases hd : deriveChatCollege u1 u2 college with
  | none => rw [hd] at hcc; simp at hcc
  | some cid =>
    rw [hd] at hcc
    simp only [Option.some.injEq, Prod.mk.injEq] at hcc
    obtain ⟨hc, hs⟩ := hcc
    subst hs
    unfold NoDoubleActive at h ⊢
    simp only []
    rw [List.pairwise_append]
    refine ⟨h, List.pairwise_singleton _ _, ?_⟩
    intro x hx y hy
    simp only [List.mem_singleton] at hy
    subst hy
    intro hxact _
    have hp1 := not_active_participant s u1 h1 x hx hxact
    have hp2 := not_active_participant s u2 h2 x hx hxact
    simp [sharesParticipant, hp1.1, hp1.2, hp2.1, hp2.2]

/-- The loop of `try_match_users` preserves the invariant for any fuel:
purge iterations do not touch chat rows, and a chat is only created for a
pair with no active chats. -/
theorem noDoubleActive_fuel :
    ∀ (fuel : Nat) (college : Option Nat) (b : Bool) (s : MState),
      NoDoubleActive s →
      NoDoubleActive (try_match_users_fuel fuel college b s).2 := by
  intro fuel
  induction fuel with
  | zero =>
    intro college b s h
    simpa [try_match_users_fuel] using h
  | succ f ih =>
    intro college b s h
    rw [try_match_users_fuel]
    cases hfm : find_match s college b with
    | none => simpa using h
    | some p =>
      rcases p with ⟨u1, u2⟩
      simp only []
      split
      · -- purge branch: the chat rows are untouched
        apply ih
        have hgen : ∀ t : MState, t.chats = s.chats → NoDoubleActive t := by
          intro t ht
          unfold NoDoubleActive at h ⊢
          rw [ht]
          exact h
        apply hgen
        split <;> split <;> rfl
      · -- clean pair: a chat may be created
        next hno =>
        have hno' : (getActiveChat s u1).isSome = false ∧
            (getActiveChat s u2).isSome = false := by
          simp only [Bool.or_eq_true, not_or, Bool.not_eq_true] at hno
          exact hno
        have h1 : getActiveChat s u1 = none := by
          cases hgo : getActiveChat s u1
          · rfl
          · rw [hgo] at hno'
            exact absurd hno'.1 (by simp)
        have h2 : getActiveChat s u2 = none := by
          cases hgo : getActiveChat s u2
          · rfl
          · rw [hgo] at hno'
            exact absurd hno'.2 (by simp)
        split
        · exact h
        · next c s' hcc =>
          exact noDoubleActive_create_chat u1 u2 _ s h h1 h2 c s' hcc

/-- **C1.** `try_match_users` preserves the core invariant: if before the
call no user id appears as a participant in two different active chats,
the same holds after the call — stale candidates are purged instead of
being paired, and a chat is only created for candidates with no active
chat. -/
theorem try_match_users_preserves_invariant (college : Option Nat)
    (b : Bool) (s : MState) (h : NoDoubleActive s) :
    NoDoubleActive (try_match_users college b s).2 :=
  noDoubleActive_fuel _ college b s h

/-- Witness for **C1** on a concrete state (which does create a chat). -/
theorem try_match_users_preserves_invariant_witness :
    NoDoubleActive (try_match_users (some 3) false staleState).2 :=
  try_match_users_preserves_invariant (some 3) false staleState (by decide)

/-- Users who have chatted together are both experienced. -/
theorem hasAnyChatHistory_of_chatted (chats : List Chat) (u v : User)
    (h : haveUsersChattedBefore chats u v = true) :
    hasAnyChatHistory chats u = true ∧ hasAnyChatHistory chats v = true := by
  unfold haveUsersChattedBefore at h
  rw [List.any_eq_true] at h
  obtain ⟨c, hc, hp⟩ := h
  have hp' : (c.participant1 == u.id && c.participant2 == v.id) = true ∨
      (c.participant1 == v.id && c.participant2 == u.id) = true := by
    simpa using hp
  constructor <;>
    · unfold hasAnyChatHistory
      rw [List.any_eq_true]
      refine ⟨c, hc, ?_⟩
      rcases hp' with h' | h' <;>
        · have := Bool.and_elim_left h'
          have h2 := Bool.and_elim_right h'
          simp_all

/-- The shared-chat query is symmetric. -/
theorem haveUsersChattedBefore_symm (chats : List Chat) (u v : User) :
    haveUsersChattedBefore chats u v = haveUsersChattedBefore chats v u := by
  unfold haveUsersChattedBefore
  congr 1
  funext c
  rw [Bool.or_comm]

/-- On a two-entry pool of experienced users who have chatted together,
`find_match` reaches tier 4 and pairs them exactly when both have waited
at least 5 seconds. -/
theorem findMatchOnPool_two_experienced (e1 e2 : WaitingListEntry)
    (chats : List Chat) (now : Nat)
    (h1 : hasAnyChatHistory chats e1.user = true)
    (h2 : hasAnyChatHistory chats e2.user = true)
    (hc : haveUsersChattedBefore chats e1.user e2.user = true)
    (hne : e1.user.id ≠ e2.user.id) :
    findMatchOnPool [e1, e2] chats now =
      if 5 ≤ now - e1.created_at ∧ 5 ≤ now - e2.created_at
      then some (e1.user, e2.user) else none := by
  have hne' : (e1.user.id == e2.user.id) = false := beq_eq_false_iff_ne.mpr hne
  by_cases ha5 : 5 ≤ now - e1.created_at <;>
    by_cases hb5 : 5 ≤ now - e2.created_at <;>
      simp [findMatchOnPool, List.filter, strategy2Scan, strategy3Select,
        allPairs, waitedAtLeast5, entryFor, tier4Step, List.find?,
        h1, h2, hc, hne', ha5, hb5]

/-- **C5.** Users `A` and `B` have chatted before and hold the only two
waiting entries: `try_match_users` returns no match while either has
waited under 5 seconds, and once both have waited at least 5 seconds it
returns a chat whose participants are exactly `A` and `B`. -/
theorem try_match_repeat_pair_after_5s (A B : User)
    (eA eB : WaitingListEntry) (cid : Nat) (b : Bool) (s : MState)
    (hA : eA.user = A) (hB : eB.user = B) (hid : A.id ≠ B.id)
    (hsvcA : A.is_service_account = false)
    (hsvcB : B.is_service_account = false)
    (hcolA : eA.college = cid) (hcolB : eB.college = cid)
    (hentries : s.entries = [eA, eB] ∨ s.entries = [eB, eA])
    (hchatted : haveUsersChattedBefore s.chats A B = true)
    (hnoA : getActiveChat s A = none) (hnoB : getActiveChat s B = none) :
    ((s.now - eA.created_at < 5 ∨ s.now - eB.created_at < 5) →
      try_match_users (some cid) b s = (.noMatch, s)) ∧
    ((5 ≤ s.now - eA.created_at ∧ 5 ≤ s.now - eB.created_at) →
      ∃ ch s', try_match_users (some cid) b s = (.matched ch, s') ∧
        ((ch.participant1 = A.id ∧ ch.participant2 = B.id) ∨
         (ch.participant1 = B.id ∧ ch.participant2 = A.id))) := by
  have hexp := hasAnyChatHistory_of_chatted s.chats A B hchatted
  have hchatted' : haveUsersChattedBefore s.chats B A = true := by
    rw [haveUsersChattedBefore_symm]
    exact hchatted
  have hpoolEntries : poolEntries s (some cid) b = s.entries := by
    rcases hentries with he | he <;>
      cases b <;>
        simp [poolEntries, he, List.filter, hcolA, hcolB]
  have hpool : assemblePool s (some cid) b = [eA, eB] ∨
      assemblePool s (some cid) b = [eB, eA] := by
    unfold assemblePool
    rw [hpoolEntries]
    rcases hentries with he | he <;> rw [he]
    · exact orderByCreatedAt_two eA eB
    · rcases orderByCreatedAt_two eB eA with h | h
      · right; exact h
      · left; exact h
  have hlen : s.entries.length = 2 := by
    rcases hentries with he | he <;> rw [he] <;> rfl
  -- find_match in either pool order
  have hfmAB := findMatchOnPool_two_experienced eA eB s.chats s.now
    (by rw [hA]; exact hexp.1) (by rw [hB]; exact hexp.2)
    (by rw [hA, hB]; exact hchatted) (by rw [hA, hB]; exact hid)
  have hfmBA := findMatchOnPool_two_experienced eB eA s.chats s.now
    (by rw [hB]; exact hexp.2) (by rw [hA]; exact hexp.1)
    (by rw [hA, hB]; exact hchatted') (by rw [hA, hB]; exact Ne.symm hid)
  constructor
  · intro hlt
    have hcond : ¬ (5 ≤ s.now - eA.created_at ∧ 5 ≤ s.now - eB.created_at) := by
      omega
    have hfm : find_match s (some cid) b = none := by
      unfold find_match
      rcases hpool with h | h <;> rw [h]
      · rw [hfmAB, if_neg hcond]
      · rw [hfmBA, if_neg (by omega)]
    show try_match_users_fuel (s.entries.length + 1) (some cid) b s = _
    rw [hlen]
    exact tmuf_none 2 (some cid) b s hfm
  · intro hge
    rcases hpool with h | h
    · have hfm : find_match s (some cid) b = some (A, B) := by
        unfold find_match
        rw [h, hfmAB, if_pos hge, hA, hB]
      have heq : try_match_users (some cid) b s =
          (.matched
             { id := s.nextChatId, college := cid, participant1 := A.id,
               participant2 := B.id, created_at := s.now, is_active := true },
           { s with
             entries := s.entries.filter
               (fun e => !(e.user.id == A.id || e.user.id == B.id)),
             chats := s.chats ++
               [{ id := s.nextChatId, college := cid, participant1 := A.id,
                  participant2 := B.id, created_at := s.now, is_active := true }],
             messages := s.messages ++
               [{ id := s.nextMessageId, chat := s.nextChatId, sender := none,
                  content := chatStartedContent, message_type := .system,
                  created_at := s.now, is_read := false }],
             nextChatId := s.nextChatId + 1,
             nextMessageId := s.nextMessageId + 1 }) := by
        show try_match_users_fuel (s.entries.length + 1) (some cid) b s = _
        rw [hlen]
        rw [tmuf_create_nonservice 2 (some cid) b s A B hfm hnoA hnoB hsvcA hsvcB]
        rfl
      exact ⟨_, _, heq, Or.inl ⟨rfl, rfl⟩⟩
    · have hfm : find_match s (some cid) b = some (B, A) := by
        unfold find_match
        rw [h, hfmBA, if_pos (by omega), hA, hB]
      have heq : try_match_users (some cid) b s =
          (.matched
             { id := s.nextChatId, college := cid, participant1 := B.id,
               participant2 := A.id, created_at := s.now, is_active := true },
           { s with
             entries := s.entries.filter
               (fun e => !(e.user.id == B.id || e.user.id == A.id)),
             chats := s.chats ++
               [{ id := s.nextChatId, college := cid, participant1 := B.id,
                  participant2 := A.id, created_at := s.now, is_active := true }],
             messages := s.messages ++
               [{ id := s.nextMessageId, chat := s.nextChatId, sender := none,
                  content := chatStartedContent, message_type := .system,
                  created_at := s.now, is_read := false }],
             nextChatId := s.nextChatId + 1,
             nextMessageId := s.nextMessageId + 1 }) := by
        show try_match_users_fuel (s.entries.length + 1) (some cid) b s = _
        rw [hlen]
        rw [tmuf_create_nonservice 2 (some cid) b s B A hfm hnoB hnoA hsvcB hsvcA]
        rfl
      exact ⟨_, _, heq, Or.inr ⟨rfl, rfl⟩⟩

/-- Witness for **C5**: 2 seconds after the younger join `try_match`
returns none; 9 seconds in, it matches the repeat pair. -/
theorem try_match_repeat_pair_after_5s_witness :
    try_match_users (some 4) true beforeState = (.noMatch, beforeState) ∧
    (∃ ch s', try_match_users (some 4) true afterState = (.matched ch, s') ∧
      ((ch.participant1 = repUserA.id ∧ ch.participant2 = repUserB.id) ∨
       (ch.participant1 = repUserB.id ∧ ch.participant2 = repUserA.id))) :=
  ⟨(try_match_repeat_pair_after_5s repUserA repUserB
      ⟨repUserA, 4, 0⟩ ⟨repUserB, 4, 1⟩ 4 true beforeState
      rfl rfl (by decide) rfl rfl rfl rfl (Or.inl rfl) (by decide)
      (by decide) (by decide)).1 (by decide),
   (try_match_repeat_pair_after_5s repUserA repUserB
      ⟨repUserA, 4, 0⟩ ⟨repUserB, 4, 1⟩ 4 true afterState
      rfl rfl (by decide) rfl rfl rfl rfl (Or.inl rfl) (by decide)
      (by decide) (by decide)).2 (by decide)⟩

/-- **C9 counterexample.** A user with no active chat joins the queue
while a partner is waiting: the immediate match succeeds, and *no*
delayed re-match attempt is scheduled (`schedule_delayed_match` sits in
the `else` branch of `MainConsumer.try_match`), contradicting "regardless
of whether the immediate match succeeded". -/
theorem join_queue_no_delayed_schedule_on_success :
    getActiveChat c9State freshUser2 = none ∧
    (join_queue freshUser2 c9State).1 =
      .matchResult (.matched ⟨0, 1, 1, 2, 10, true⟩) ∧
    (join_queue freshUser2 c9State).2.2 = false := by
  exact ⟨rfl, rfl, rfl⟩

/-- **C9 (amended).** For a `join_queue` action by a user with no active
chat, the delayed re-match attempt is scheduled exactly when the
immediate match attempt returned none (a successful immediate match
schedules nothing); and when the delayed task fires in a state where the
user no longer holds a waiting entry, it returns without acting. -/
theorem join_queue_delayed_schedule_iff (user : User) (s t : MState)
    (college : Option Nat)
    (h : getActiveChat s user = none)
    (ht : ∀ e ∈ t.entries, e.user.id ≠ user.id) :
    ((join_queue user s).2.2 = true ↔
      (join_queue user s).1 = .matchResult .noMatch) ∧
    delayedMatchFire user college t = none := by
  constructor
  · unfold join_queue
    rw [h]
    rcases har : add_to_waiting_list user user.college s with ⟨ar, s1⟩
    cases ar <;> simp [consumerTryMatch]
  · unfold delayedMatchFire
    have hany : t.entries.any (fun e => e.user.id == user.id) = false := by
      rw [List.any_eq_false]
      intro e he
      simpa using ht e he
    simp [hany]

/-- Witness for **C9 (amended)**: the successful immediate match above
schedules nothing, and a fired delayed task does nothing for a dequeued
user. -/
theorem join_queue_delayed_schedule_iff_witness :
    (((join_queue freshUser2 c9State).2.2 = true) ↔
      ((join_queue freshUser2 c9State).1 = .matchResult .noMatch)) ∧
    delayedMatchFire freshUser2 (some 1) emptyState = none :=
  join_queue_delayed_schedule_iff freshUser2 c9State emptyState (some 1)
    rfl (by decide)

/-- Witness for **C7** at a concrete active chat. -/
theorem end_chat_called_twice_witness :
    (end_chat sampleChat sampleChatState).1 = true ∧
    (end_chat sampleChat sampleChatState).2.messages =
      sampleChatState.messages ++
      [{ id := sampleChatState.nextMessageId, chat := sampleChat.id,
         sender := none, content := chatEndedContent, message_type := .system,
         created_at := sampleChatState.now, is_read := false }] ∧
    (∀ c ∈ (end_chat sampleChat sampleChatState).2.chats,
      c.id = sampleChat.id → c.is_active = false) ∧
    end_chat { sampleChat with is_active := false }
        (end_chat sampleChat sampleChatState).2 =
      (false, (end_chat sampleChat sampleChatState).2) :=
  end_chat_called_twice sampleChat sampleChatState rfl

end CloakTalk
